import Mathlib

/-!
IdeaShelf: verification of the storage layer.

A shallow embedding of the data-access layer of the IdeaShelf book-review
application (src/IdeaShelf.py), together with theorems settling the frozen
claims about its specification.

The SQLite tables `books` and `reviews` are embedded as Lean lists carried in
an explicit state record; each data-access function of the source becomes a
pure Lean function on that state.  SQL `ORDER BY` is embedded as
`List.insertionSort` with the corresponding total order, SQL `LIKE` patterns
by an executable matcher `likeMatch`, and Python-level idioms (`str.strip`,
truthiness, `int(...)`) by explicit executable models.

The source file stores `created_at` as a `"%Y-%m-%d %H:%M:%S"` string and
orders by `datetime(created_at)`; since that formatting is order-isomorphic to
chronological time, timestamps are embedded as natural numbers, supplied as an
explicit `now` argument in place of `datetime.now()`.
-/

/-- Model of Python `str.strip()`: drop leading and trailing whitespace. -/
def strip (s : String) : String :=
  ⟨(((s.data.dropWhile Char.isWhitespace).reverse).dropWhile Char.isWhitespace).reverse⟩

/-- A Python value as it can arrive in the `rating` argument of `add_review`:
`None`, an `int`, or a `str`. -/
inductive PyVal where
  | vNone : PyVal
  | vInt : Int → PyVal
  | vStr : String → PyVal
deriving DecidableEq, Repr

/-- Python truthiness for `PyVal`: `None`, `0` and `""` are falsy. -/
def pyTruthy : PyVal → Bool
  | .vNone => false
  | .vInt n => n != 0
  | .vStr s => s != ""

/-- Model of Python `int(...)` on a `PyVal`: `none` means the conversion
raises (`int(None)`, `int` of a non-numeric string). -/
def pyToInt : PyVal → Option Int
  | .vNone => none
  | .vInt n => some n
  | .vStr s => s.toInt?

/-- ASCII lower-casing of a single character, as used by SQLite's `LIKE`
comparison (case-insensitive for ASCII `A`–`Z` only). -/
def lowerChar (c : Char) : Char :=
  if 'A' ≤ c ∧ c ≤ 'Z' then Char.ofNat (c.toNat + 32) else c

/-- Semantics of SQLite `LIKE`: `likeMatch pat s` decides whether the pattern
`pat` matches the whole string `s`, with `'%'` matching any (possibly empty)
sequence, `'_'` matching exactly one character, and ordinary characters
compared ASCII-case-insensitively. -/
def likeMatch : List Char → List Char → Bool
  | [], s => s.isEmpty
  | c :: ps, s =>
    if c = '%' then s.tails.any (fun t => likeMatch ps t)
    else
      match s with
      | [] => false
      | d :: s2 => (c == '_' || lowerChar c == lowerChar d) && likeMatch ps s2

/-- A row of the `books` table: `id INTEGER PRIMARY KEY`, `title TEXT NOT NULL
UNIQUE`, `author TEXT`, `genre TEXT NOT NULL`.  The `author` column is always
written as a string (possibly empty) by `add_book`, so it is embedded as
`String`. -/
structure Book where
  id : Nat
  title : String
  author : String
  genre : String
deriving DecidableEq, Repr

/-- A row of the `reviews` table: `id, book_id, nickname, rating, content,
created_at`.  `rating` is a nullable integer column; `created_at` is embedded
as a chronological natural number. -/
structure Review where
  id : Nat
  book_id : Nat
  nickname : String
  rating : Option Int
  content : String
  created_at : Nat
deriving DecidableEq, Repr

/-- The database state: contents of both tables plus the next values of
the two `AUTOINCREMENT` id sequences. -/
structure DB where
  books : List Book
  reviews : List Review
  nextBookId : Nat
  nextReviewId : Nat
deriving DecidableEq, Repr

/-- The empty database produced by `init_db` on a fresh file (before
seeding): both tables empty, id sequences starting at 1. -/
def db0 : DB := ⟨[], [], 1, 1⟩

/-- Embedding of `add_book(title, author, genre)`: `INSERT OR IGNORE` of the
stripped values (the unique column is `title`), then `SELECT id FROM books
WHERE title=?` and `row.iloc[0]` — which raises if no row matches, embedded as
the `none` result.  `author` is `Option String` so that an omitted (`None`)
argument is representable; `author.strip() if author else ""` maps it to a
string. -/
def add_book (st : DB) (title : String) (author : Option String) (genre : String) :
    Option Nat × DB :=
  let t := strip title
  let st1 :=
    if st.books.any (fun b => b.title == t) then st
    else { st with
           books := st.books ++ [{ id := st.nextBookId, title := t,
                                   author := match author with
                                             | none => ""
                                             | some s => strip s,
                                   genre := strip genre }],
           nextBookId := st.nextBookId + 1 }
  match st1.books.find? (fun b => b.title == t) with
  | some b => (some b.id, st1)
  | none => (none, st1)

/-- Embedding of `get_book(book_id)`: `SELECT ... WHERE id=?`, first row as a
record, or `None` when the result set is empty. -/
def get_book (st : DB) (book_id : Nat) : Option Book :=
  st.books.find? (fun b => b.id == book_id)

/-- The order `ORDER BY title` (SQLite default binary collation, embedded as
the lexicographic order on strings). -/
def bookLe (a b : Book) : Prop := a.title ≤ b.title

instance : DecidableRel bookLe :=
  fun a b => inferInstanceAs (Decidable (a.title ≤ b.title))

instance : IsTotal Book bookLe := ⟨fun a b => le_total a.title b.title⟩

instance : IsTrans Book bookLe := ⟨fun _ _ _ h h2 => le_trans h h2⟩

/-- Embedding of `search_books(q)`: `WHERE title LIKE ? OR author LIKE ?` with
the pattern `f"%{q}%"` (so wildcard characters inside `q` stay active), then
`ORDER BY title`. -/
def search_books (st : DB) (q : String) : List Book :=
  let pat := '%' :: (q.data ++ ['%'])
  List.insertionSort bookLe
    (st.books.filter (fun b => likeMatch pat b.title.data || likeMatch pat b.author.data))

/-- The order `ORDER BY datetime(created_at) DESC, id DESC` of
`get_reviews`. -/
def reviewLe (a b : Review) : Prop :=
  b.created_at < a.created_at ∨ (a.created_at = b.created_at ∧ b.id ≤ a.id)

instance : DecidableRel reviewLe :=
  fun a b => inferInstanceAs (Decidable (_ ∨ _))

instance : IsTotal Review reviewLe := ⟨by intro a b; unfold reviewLe; omega⟩

instance : IsTrans Review reviewLe := ⟨by intro a b c; unfold reviewLe; omega⟩

/-- Embedding of `get_reviews(book_id)`: `WHERE book_id=? ORDER BY
datetime(created_at) DESC, id DESC`. -/
def get_reviews (st : DB) (book_id : Nat) : List Review :=
  List.insertionSort reviewLe (st.reviews.filter (fun r => r.book_id == book_id))

/-- The nickname stored by `add_review`: `nickname.strip() if nickname else
"익명"`.  A `none` argument models Python `None` (omitted). -/
def storedNickname (nickname : Option String) : String :=
  match nickname with
  | none => "익명"
  | some s => if s == "" then "익명" else strip s

/-- The rating stored by `add_review`: `int(rating) if rating else None`.
The outer `none` models the call raising (a truthy value `int(...)` cannot
convert); `some r` is the value bound to the column (`r = none` is SQL
`NULL`). -/
def storedRating (rating : PyVal) : Option (Option Int) :=
  if pyTruthy rating then (pyToInt rating).map some else some none

/-- Embedding of `add_review(book_id, nickname, rating, content)`: inserts one
row with defaulted nickname and rating, stripped content, and the current
timestamp.  `none` models the call raising on an unconvertible truthy
rating. -/
def add_review (st : DB) (now : Nat) (book_id : Nat) (nickname : Option String)
    (rating : PyVal) (content : String) : Option DB :=
  match storedRating rating with
  | none => none
  | some rv =>
    some { st with
           reviews := st.reviews ++
             [{ id := st.nextReviewId, book_id := book_id,
                nickname := storedNickname nickname, rating := rv,
                content := strip content, created_at := now }],
           nextReviewId := st.nextReviewId + 1 }

/-- Embedding of the review-form handler in `render_detail`: when the content
is blank after stripping, warn and do nothing (flag `false`); otherwise call
`add_review` and report success (flag `true`).  If `add_review` raises, the
database is left unchanged. -/
def submitReview (st : DB) (now : Nat) (book_id : Nat) (nickname : Option String)
    (rating : PyVal) (content : String) : DB × Bool :=
  if strip content == "" then (st, false)
  else ((add_review st now book_id nickname rating content).getD st, true)

/-- Embedding of `stars(n)`: `int(n)` then `"⭐"*n + "☆"*(5-n)`, with any
exception (missing or malformed rating) degrading to the sentinel
`"평점 없음"`.  Python string repetition with a non-positive count yields the
empty string, matching `Int.toNat`. -/
def stars (v : PyVal) : String :=
  match pyToInt v with
  | some k => ⟨List.replicate k.toNat '⭐' ++ List.replicate (5 - k).toNat '☆'⟩
  | none => "평점 없음"

/-- Modelled from the spec: the source file under verification lacks the
`parent_id` and `likes` columns of the `reviews` table, the like operation,
and the parent-filtered review listing, all of which the spec describes
("optional parent review identifier (self-referential, forming a tree of
replies; null parent = top-level review)", "like counter (defaults to 0,
monotonically incremented)").  A review row of that fuller variant. -/
structure ReviewT where
  id : Nat
  book_id : Nat
  parent_id : Option Nat
  nickname : String
  rating : Option Int
  content : String
  likes : Nat
  created_at : Nat
deriving DecidableEq, Repr

/-- Modelled from the spec: the reviews table of the fuller variant plus its
id sequence. -/
structure DBT where
  reviews : List ReviewT
  nextReviewId : Nat
deriving DecidableEq, Repr

/-- Modelled from the spec: "insert review (defaults nickname/rating, stamps
creation time)" with an "optional parent review identifier"; the like counter
"defaults to 0". -/
def add_reviewT (st : DBT) (now : Nat) (book_id : Nat) (parent : Option Nat)
    (nickname : String) (rating : Option Int) (content : String) : DBT :=
  { st with
    reviews := st.reviews ++
      [{ id := st.nextReviewId, book_id := book_id, parent_id := parent,
         nickname := nickname, rating := rating, content := content,
         likes := 0, created_at := now }],
    nextReviewId := st.nextReviewId + 1 }

/-- Modelled from the spec: "increment a review's like counter by exactly
1". -/
def like_review (st : DBT) (rid : Nat) : DBT :=
  { st with
    reviews := st.reviews.map
      (fun r => if r.id = rid then { r with likes := r.likes + 1 } else r) }

/-- The spec's ordering contract for review listings: "order by descending
like count, then descending creation time (ties broken by descending
identifier in the simpler variant)".  The source realizes the creation-time
and identifier keys as `ORDER BY datetime(created_at) DESC, id DESC`. -/
def reviewLeT (a b : ReviewT) : Prop :=
  b.likes < a.likes ∨
    (a.likes = b.likes ∧
      (b.created_at < a.created_at ∨ (a.created_at = b.created_at ∧ b.id ≤ a.id)))

instance : DecidableRel reviewLeT :=
  fun a b => inferInstanceAs (Decidable (_ ∨ _))

instance : IsTotal ReviewT reviewLeT := ⟨by intro a b; unfold reviewLeT; omega⟩

instance : IsTrans ReviewT reviewLeT := ⟨by intro a b c; unfold reviewLeT; omega⟩

/-- Modelled from the spec: "fetch single-level ... review list for a book
optionally filtered by parent", under the ordering contract above. -/
def get_reviewsT (st : DBT) (book_id : Nat) (parent : Option Nat) : List ReviewT :=
  List.insertionSort reviewLeT
    (st.reviews.filter (fun r => r.book_id == book_id && r.parent_id == parent))

/-- The review-affecting operations of the fuller variant: posting a review
(or reply) and liking a review. -/
inductive OpT where
  | post (now book_id : Nat) (parent : Option Nat) (nickname : String)
      (rating : Option Int) (content : String)
  | like (rid : Nat)

/-- Apply one operation to the threaded review state. -/
def applyOp : OpT → DBT → DBT
  | .post now book_id parent nickname rating content, st =>
      add_reviewT st now book_id parent nickname rating content
  | .like rid, st => like_review st rid

/-- The like count of the review with identifier `rid` (0 when absent). -/
def likesOf (st : DBT) (rid : Nat) : Nat :=
  match st.reviews.find? (fun r => r.id == rid) with
  | some r => r.likes
  | none => 0

/-- Liking the review `rid` exactly `N` times in a row. -/
def likeN (st : DBT) (rid : Nat) (N : Nat) : DBT :=
  (fun s => like_review s rid)^[N] st

/-- Prefix test on character lists: `matchesAt q s` holds when `s` starts
with `q`. -/
def matchesAt : List Char → List Char → Bool
  | [], _ => true
  | _ :: _, [] => false
  | c :: cs, d :: ds => c == d && matchesAt cs ds

/-- Contiguous-occurrence test: `occursIn q s` holds when `q` occurs as a
contiguous run inside `s`. -/
def occursIn (q s : List Char) : Bool :=
  s.tails.any (fun t => matchesAt q t)

/-- Definition following the spec's words for the search claim: "books whose
title OR author contains q as a case-insensitive substring" — `q` occurs in
`s` after ASCII lower-casing both. -/
def containsCI (q s : String) : Bool :=
  occursIn (q.data.map lowerChar) (s.data.map lowerChar)

/-- Claim C6: a review submission whose content is empty after trimming is
rejected (warning path, flag `false`), leaves the database unchanged, and
hence never appears in any subsequent review listing for the book. -/
theorem blank_content_rejected (st : DB) (now book_id : Nat) (nickname : Option String)
    (rating : PyVal) (content : String) (h : strip content = "") :
    submitReview st now book_id nickname rating content = (st, false) ∧
    ∀ b : Nat,
      get_reviews (submitReview st now book_id nickname rating content).1 b =
        get_reviews st b := by
  have h1 : submitReview st now book_id nickname rating content = (st, false) := by
    simp [submitReview, h]
  exact ⟨h1, fun b => by rw [h1]⟩

/-- Witness for claim C6 at a concrete whitespace-only submission. -/
theorem blank_content_rejected_witness :
    submitReview db0 5 1 (some "nick") (.vInt 4) "   " = (db0, false) :=
  (blank_content_rejected db0 5 1 (some "nick") (.vInt 4) "   " (by decide)).1

/-- Claim C7 counterexample: a whitespace-only (blank) nickname is stored as
the empty string, not as "익명" — the listing returns nickname "". -/
theorem whitespace_nickname_cex :
    (add_review db0 3 9 (some " ") (.vInt 5) "good").map
        (fun st => (get_reviews st 9).map Review.nickname) = some [""] ∧
    ("" : String) ≠ "익명" := by decide

/-- Claim C7 (amended): a review submission whose nickname is omitted or the
empty string is stored with nickname "익명" and appears as such in the book's
review listing; a whitespace-only nickname is instead stripped to "". -/
theorem empty_nickname_defaults (st : DB) (now book_id : Nat) (nickname : Option String)
    (rating : PyVal) (content : String) (rv : Option Int)
    (hn : nickname = none ∨ nickname = some "")
    (hr : storedRating rating = some rv) :
    add_review st now book_id nickname rating content =
      some { st with
             reviews := st.reviews ++
               [⟨st.nextReviewId, book_id, "익명", rv, strip content, now⟩],
             nextReviewId := st.nextReviewId + 1 } ∧
    (⟨st.nextReviewId, book_id, "익명", rv, strip content, now⟩ : Review) ∈
      get_reviews { st with
             reviews := st.reviews ++
               [⟨st.nextReviewId, book_id, "익명", rv, strip content, now⟩],
             nextReviewId := st.nextReviewId + 1 } book_id := by
  have hnick : storedNickname nickname = "익명" := by
    rcases hn with h | h <;> simp [storedNickname, h]
  constructor
  · simp [add_review, hr, hnick]
  · rw [get_reviews, List.mem_insertionSort, List.mem_filter]
    exact ⟨List.mem_append_right _ (by simp), by simp⟩

/-- Witness for claim C7 at the spec's example: nickname omitted, rating 5,
content "좋은 책" on book 9. -/
theorem empty_nickname_defaults_witness :
    (⟨1, 9, "익명", some 5, "좋은 책", 3⟩ : Review) ∈
      get_reviews { db0 with
                    reviews := [⟨1, 9, "익명", some 5, "좋은 책", 3⟩],
                    nextReviewId := 2 } 9 :=
  (empty_nickname_defaults db0 3 9 none (.vInt 5) "좋은 책" (some 5)
    (Or.inl rfl) (by decide)).2

/-- Claim C10: a falsy rating (None, 0, empty string) is stored as NULL, a
truthy convertible rating is stored as its integer value, and a NULL rating is
displayed via the "평점 없음" sentinel. -/
theorem falsy_rating_stored_null (st : DB) (now book_id : Nat)
    (nickname : Option String) (content : String) (v : PyVal) :
    (pyTruthy v = false →
      add_review st now book_id nickname v content =
        some { st with
               reviews := st.reviews ++
                 [⟨st.nextReviewId, book_id, storedNickname nickname, none,
                   strip content, now⟩],
               nextReviewId := st.nextReviewId + 1 }) ∧
    (∀ n : Int, pyTruthy v = true → pyToInt v = some n →
      add_review st now book_id nickname v content =
        some { st with
               reviews := st.reviews ++
                 [⟨st.nextReviewId, book_id, storedNickname nickname, some n,
                   strip content, now⟩],
               nextReviewId := st.nextReviewId + 1 }) ∧
    stars .vNone = "평점 없음" := by
  refine ⟨fun h => ?_, fun n h1 h2 => ?_, rfl⟩
  · simp [add_review, storedRating, h]
  · simp [add_review, storedRating, h1, h2]

/-- Witness for claim C10: a submitted rating of 0 is stored as NULL. -/
theorem falsy_rating_stored_null_witness :
    add_review db0 3 9 (some "bob") (.vInt 0) "nice" =
      some { db0 with
             reviews := [⟨1, 9, "bob", none, "nice", 3⟩],
             nextReviewId := 2 } :=
  (falsy_rating_stored_null db0 3 9 (some "bob") "nice" (.vInt 0)).1 (by decide)

/-- Claim C8: the rating display is total — it yields the sentinel
"평점 없음" exactly for rating data not convertible to an integer (and a
genuine star string, never the sentinel and never an exception, otherwise). -/
theorem stars_sentinel (v : PyVal) : stars v = "평점 없음" ↔ pyToInt v = none := by
  constructor
  · intro h
    cases hv : pyToInt v with
    | none => rfl
    | some k =>
      exfalso
      have hs : stars v = ⟨List.replicate k.toNat '⭐' ++ List.replicate (5 - k).toNat '☆'⟩ := by
        simp [stars, hv]
      rw [hs] at h
      have hd : List.replicate k.toNat '⭐' ++ List.replicate (5 - k).toNat '☆' =
          ['평', '점', ' ', '없', '음'] := congrArg String.data h
      have hcases : 1 ≤ k.toNat ∨ (k.toNat = 0 ∧ 1 ≤ (5 - k).toNat) := by omega
      rcases hcases with hm | ⟨hm, hp⟩
      · obtain ⟨m', hm'⟩ : ∃ m', k.toNat = m' + 1 := ⟨k.toNat - 1, by omega⟩
        rw [hm', List.replicate_succ] at hd
        rw [List.cons_append] at hd
        injection hd with h1 _
        exact absurd h1 (by decide)
      · obtain ⟨p', hp'⟩ : ∃ p', (5 - k).toNat = p' + 1 := ⟨(5 - k).toNat - 1, by omega⟩
        rw [hm, hp', List.replicate_zero, List.nil_append, List.replicate_succ] at hd
        injection hd with h1 _
        exact absurd h1 (by decide)
  · intro h
    rw [stars, h]

/-- Claim C5 counterexample: inserting a title with trailing whitespace stores
the trimmed title, so get_book does not return exactly the title that was
given. -/
theorem add_book_roundtrip_cex :
    (add_book db0 "cosmos " none "sci").1 = some 1 ∧
    (get_book (add_book db0 "cosmos " none "sci").2 1).map Book.title = some "cosmos" ∧
    ("cosmos" : String) ≠ "cosmos " := by decide

/-- Claim C5 (amended): for a fresh (not previously present) trimmed title,
get_book on the identifier returned by add_book yields the trimmed title,
trimmed author and trimmed genre that were given, with author the empty
string when omitted. -/
theorem add_book_fresh_roundtrip (st : DB) (title : String) (author : Option String)
    (genre : String)
    (hfresh : ∀ b ∈ st.books, b.title ≠ strip title)
    (hid : ∀ b ∈ st.books, b.id ≠ st.nextBookId) :
    (add_book st title author genre).1 = some st.nextBookId ∧
    get_book (add_book st title author genre).2 st.nextBookId =
      some ⟨st.nextBookId, strip title,
            (match author with | none => "" | some s => strip s), strip genre⟩ := by
  have hany : st.books.any (fun b => b.title == strip title) = false := by
    rw [List.any_eq_false]
    intro b hb
    simpa using hfresh b hb
  have hfind1 : st.books.find? (fun b => b.title == strip title) = none :=
    List.find?_eq_none.mpr (fun b hb => by simpa using hfresh b hb)
  have hfind2 : st.books.find? (fun b => b.id == st.nextBookId) = none :=
    List.find?_eq_none.mpr (fun b hb => by simpa using hid b hb)
  constructor
  · simp [add_book, hany, List.find?_append, hfind1]
  · simp [add_book, get_book, hany, List.find?_append, hfind1, hfind2]

/-- Witness for claim C5 at the spec's example book, given with surrounding
whitespace and all fields distinct from their trimmed forms. -/
theorem add_book_fresh_roundtrip_witness :
    (add_book db0 " 코스모스 " (some " 칼 세이건 ") " 과학 ").1 = some 1 ∧
    get_book (add_book db0 " 코스모스 " (some " 칼 세이건 ") " 과학 ").2 1 =
      some ⟨1, "코스모스", "칼 세이건", "과학"⟩ :=
  add_book_fresh_roundtrip db0 " 코스모스 " (some " 칼 세이건 ") " 과학 "
    (by simp [db0]) (by simp [db0])

/-- Claim C4: adding a book whose trimmed title already exists changes
nothing (no new row), surfaces no error, and returns the identifier of the
pre-existing row with that title. -/
theorem add_book_duplicate (st : DB) (title : String) (author : Option String)
    (genre : String) (b : Book)
    (hb : b ∈ st.books) (ht : b.title = strip title)
    (huniq : st.books.Pairwise (fun x y => x.title ≠ y.title)) :
    (add_book st title author genre).1 = some b.id ∧
    (add_book st title author genre).2 = st := by
  have hany : st.books.any (fun x => x.title == strip title) = true :=
    List.any_eq_true.mpr ⟨b, hb, by simp [ht]⟩
  obtain ⟨b', hb'⟩ : ∃ b', st.books.find? (fun x => x.title == strip title) = some b' := by
    cases hf : st.books.find? (fun x => x.title == strip title) with
    | some b' => exact ⟨b', rfl⟩
    | none => exact absurd (List.find?_eq_none.mp hf b hb) (by simp [ht])
  have htitle' : b'.title = b.title := by
    have h1 : b'.title = strip title := by simpa using List.find?_some hb'
    rw [h1, ht]
  have hbb : b' = b := by
    by_contra hne
    have hsym : Symmetric (fun x y : Book => x.title ≠ y.title) :=
      fun _ _ hxy e => hxy e.symm
    exact huniq.forall hsym (List.mem_of_find?_eq_some hb') hb hne htitle'
  rw [hbb] at hb'
  constructor
  · simp [add_book, hany, hb']
  · simp [add_book, hany, hb']

/-- A one-book database used as the concrete duplicate-insert witness. -/
def dbDup : DB := ⟨[⟨1, "cosmos", "carl", "sci"⟩], [], 2, 1⟩

/-- Witness for claim C4: re-adding "cosmos" (with whitespace) to a database
already holding it leaves the state unchanged and returns identifier 1. -/
theorem add_book_duplicate_witness :
    (add_book dbDup " cosmos " (some "other") "other").1 = some 1 ∧
    (add_book dbDup " cosmos " (some "other") "other").2 = dbDup :=
  add_book_duplicate dbDup " cosmos " (some "other") "other"
    ⟨1, "cosmos", "carl", "sci"⟩ (by decide) (by decide) (by decide)

/-- Incrementing the likes of review `rid2` commutes with looking up review
`rid` by identifier, since the update never changes identifiers. -/
theorem find?_like_map (l : List ReviewT) (rid rid2 : Nat) :
    (l.map (fun r => if r.id = rid2 then { r with likes := r.likes + 1 } else r)).find?
        (fun r => r.id == rid) =
      (l.find? (fun r => r.id == rid)).map
        (fun r => if r.id = rid2 then { r with likes := r.likes + 1 } else r) := by
  induction l with
  | nil => rfl
  | cons x t ih =>
    simp only [List.map_cons]
    by_cases hid : x.id = rid
    · rw [List.find?_cons_of_pos _ (by split <;> simp [hid]),
        List.find?_cons_of_pos _ (by simp [hid])]
      simp
    · rw [List.find?_cons_of_neg _ (by split <;> simp [hid]),
        List.find?_cons_of_neg _ (by simp [hid])]
      exact ih

/-- No operation of the threaded variant ever decreases a like counter. -/
theorem likesOf_applyOp_mono (op : OpT) (st : DBT) (rid : Nat) :
    likesOf st rid ≤ likesOf (applyOp op st) rid := by
  cases op with
  | post now bid parent nick rat content =>
    simp only [applyOp, add_reviewT, likesOf, List.find?_append]
    cases hf : st.reviews.find? (fun r => r.id == rid) with
    | some r => simp [Option.or]
    | none => simp [Option.or]
  | like rid2 =>
    simp only [applyOp, like_review, likesOf, find?_like_map]
    cases hf : st.reviews.find? (fun r => r.id == rid) with
    | some r =>
      simp only [Option.map_some']
      split <;> simp
    | none => simp

/-- After liking review `rid` exactly `N` times, its row is the original row
with the like counter increased by `N`. -/
theorem find?_likeN (st : DBT) (rid : Nat) (r : ReviewT) (N : Nat)
    (h : st.reviews.find? (fun x => x.id == rid) = some r) :
    (likeN st rid N).reviews.find? (fun x => x.id == rid) =
      some { r with likes := r.likes + N } := by
  induction N generalizing st r with
  | zero => simpa [likeN] using h
  | succ n ih =>
    have hpred : r.id = rid := by simpa using List.find?_some h
    have hstep : (like_review st rid).reviews.find? (fun x => x.id == rid) =
        some { r with likes := r.likes + 1 } := by
      simp only [like_review, find?_like_map, h, Option.map_some']
      rw [if_pos hpred]
    have h3 := ih (like_review st rid) { r with likes := r.likes + 1 } hstep
    rw [likeN, Function.iterate_succ_apply]
    rw [likeN] at h3
    simpa [Nat.add_comm, Nat.add_assoc, Nat.add_left_comm] using h3

/-- Claim C1: like counts are non-negative and never decrease under any
operation of the threaded variant; liking a review present in the state `N`
times in a row increases its like count by exactly `N` (so one like operation
adds exactly 1). -/
theorem like_counts_monotone (st : DBT) (rid : Nat) :
    0 ≤ likesOf st rid ∧
    (∀ op : OpT, likesOf st rid ≤ likesOf (applyOp op st) rid) ∧
    (∀ r : ReviewT, st.reviews.find? (fun x => x.id == rid) = some r →
      ∀ N : Nat, likesOf (likeN st rid N) rid = r.likes + N) := by
  refine ⟨Nat.zero_le _, fun op => likesOf_applyOp_mono op st rid, fun r h N => ?_⟩
  simp [likesOf, find?_likeN st rid r N h]

/-- A one-review threaded database used as a concrete witness state. -/
def dbT1 : DBT := ⟨[⟨1, 7, none, "a", some 5, "hi", 0, 10⟩], 2⟩

/-- Witness for claim C1: liking review 1 three times takes its like count
from 0 to exactly 3. -/
theorem like_counts_monotone_witness :
    likesOf (likeN dbT1 1 3) 1 = 0 + 3 :=
  (like_counts_monotone dbT1 1).2.2 ⟨1, 7, none, "a", some 5, "hi", 0, 10⟩ (by decide) 3

/-- Claim C2: a reply posted under review R of book B appears in the nested
listing fetched for (B, parent = R.id) and never in the top-level
(parent-null) listing for B. -/
theorem reply_only_in_nested_listing (st : DBT) (now B : Nat) (R : ReviewT)
    (nick : String) (rat : Option Int) (content : String)
    (hR : R ∈ st.reviews) (hB : R.book_id = B) :
    (⟨st.nextReviewId, B, some R.id, nick, rat, content, 0, now⟩ : ReviewT) ∈
      get_reviewsT (add_reviewT st now B (some R.id) nick rat content) B (some R.id) ∧
    (⟨st.nextReviewId, B, some R.id, nick, rat, content, 0, now⟩ : ReviewT) ∉
      get_reviewsT (add_reviewT st now B (some R.id) nick rat content) B none := by
  constructor
  · rw [get_reviewsT, List.mem_insertionSort, List.mem_filter]
    refine ⟨?_, by simp⟩
    simp [add_reviewT]
  · intro hmem
    rw [get_reviewsT, List.mem_insertionSort, List.mem_filter] at hmem
    simpa using hmem.2

/-- Witness for claim C2: a concrete reply under review 1 of book 7 shows up
in the nested listing (and, by the theorem, not in the top-level one). -/
theorem reply_only_in_nested_listing_witness :
    (⟨2, 7, some 1, "b", none, "re", 0, 11⟩ : ReviewT) ∈
      get_reviewsT (add_reviewT dbT1 11 7 (some 1) "b" none "re") 7 (some 1) :=
  (reply_only_in_nested_listing dbT1 11 7 ⟨1, 7, none, "a", some 5, "hi", 0, 10⟩
    "b" none "re" (by decide) rfl).1

/-- Claim C3: in a state with pairwise-distinct review identifiers, every
review listing is ordered by descending like count, then descending creation
time, with ties broken by descending identifier. -/
theorem reviews_listing_ordered (st : DBT) (book_id : Nat) (parent : Option Nat)
    (hids : st.reviews.Pairwise (fun a b => a.id ≠ b.id)) :
    (get_reviewsT st book_id parent).Pairwise (fun a b =>
      b.likes < a.likes ∨
        (a.likes = b.likes ∧
          (b.created_at < a.created_at ∨
            (a.created_at = b.created_at ∧ b.id < a.id)))) := by
  have hsorted : (get_reviewsT st book_id parent).Pairwise reviewLeT :=
    List.sorted_insertionSort reviewLeT _
  have hne : (get_reviewsT st book_id parent).Pairwise (fun a b => a.id ≠ b.id) := by
    have h1 := hids.filter (fun r => r.book_id == book_id && r.parent_id == parent)
    have hperm :=
      List.perm_insertionSort reviewLeT
        (st.reviews.filter (fun r => r.book_id == book_id && r.parent_id == parent))
    exact (hperm.pairwise_iff (fun h e => h e.symm)).mpr h1
  refine (hsorted.and hne).imp ?_
  intro a b hab
  obtain ⟨h1, h2⟩ := hab
  unfold reviewLeT at h1
  omega

/-- A two-review threaded database used as a concrete ordering witness. -/
def dbT2 : DBT := ⟨[⟨1, 7, none, "a", some 5, "x", 0, 10⟩,
                   ⟨2, 7, none, "b", none, "y", 3, 11⟩], 3⟩

/-- Witness for claim C3 on a concrete two-review state. -/
theorem reviews_listing_ordered_witness :
    (get_reviewsT dbT2 7 none).Pairwise (fun a b =>
      b.likes < a.likes ∨
        (a.likes = b.likes ∧
          (b.created_at < a.created_at ∨
            (a.created_at = b.created_at ∧ b.id < a.id)))) :=
  reviews_listing_ordered dbT2 7 none (by decide)

/-- Characterization: `matchesAt q s` holds exactly when `s` decomposes as
`q` followed by a remainder. -/
theorem matchesAt_iff (q : List Char) : ∀ s : List Char,
    matchesAt q s = true ↔ ∃ t, s = q ++ t := by
  induction q with
  | nil => intro s; simp [matchesAt]
  | cons c cs ih =>
    intro s
    cases s with
    | nil =>
      simp [matchesAt]
    | cons d ds =>
      rw [matchesAt, Bool.and_eq_true, beq_iff_eq, ih ds]
      constructor
      · rintro ⟨rfl, t, rfl⟩
        exact ⟨t, rfl⟩
      · rintro ⟨t, ht⟩
        rw [List.cons_append] at ht
        injection ht with h1 h2
        exact ⟨h1.symm, t, h2⟩

/-- Unfolding equation: a pattern starting with `'%'` matches some suffix. -/
theorem likeMatch_pct (p s : List Char) :
    likeMatch ('%' :: p) s = s.tails.any (fun t => likeMatch p t) := rfl

/-- Unfolding equation: an ordinary leading pattern character never matches
the empty string. -/
theorem likeMatch_cons_nil (c : Char) (p : List Char) (h : c ≠ '%') :
    likeMatch (c :: p) [] = false := by
  rw [likeMatch]
  rw [if_neg h]

/-- Unfolding equation: an ordinary leading pattern character consumes one
string character. -/
theorem likeMatch_cons_cons (c d : Char) (p s : List Char) (h : c ≠ '%') :
    likeMatch (c :: p) (d :: s) =
      ((c == '_' || lowerChar c == lowerChar d) && likeMatch p s) := by
  rw [likeMatch]
  rw [if_neg h]

/-- A wildcard-free pattern followed by `'%'` matches a string exactly when
the lower-cased pattern is an initial run of the lower-cased string. -/
theorem likeMatch_plain_pct (q : List Char) (hp : '%' ∉ q) (hu : '_' ∉ q) :
    ∀ t : List Char,
      likeMatch (q ++ ['%']) t = true ↔
        matchesAt (q.map lowerChar) (t.map lowerChar) = true := by
  induction q with
  | nil =>
    intro t
    simp only [List.nil_append, List.map_nil]
    rw [likeMatch_pct]
    constructor
    · intro _; rfl
    · intro _
      exact List.any_eq_true.mpr ⟨[], (List.mem_tails [] t).mpr List.nil_suffix, rfl⟩
  | cons c cs ih =>
    have hc1 : c ≠ '%' := fun h => hp (h ▸ List.mem_cons_self c cs)
    have hc2 : c ≠ '_' := fun h => hu (h ▸ List.mem_cons_self c cs)
    have hp' : '%' ∉ cs := fun h => hp (List.mem_cons_of_mem c h)
    have hu' : '_' ∉ cs := fun h => hu (List.mem_cons_of_mem c h)
    intro t
    rw [List.cons_append]
    cases t with
    | nil =>
      rw [likeMatch_cons_nil _ _ hc1]
      simp only [List.map_nil, List.map_cons]
      rw [show matchesAt (lowerChar c :: List.map lowerChar cs) [] = false from rfl]
    | cons d ds =>
      rw [likeMatch_cons_cons _ _ _ _ hc1]
      rw [List.map_cons, List.map_cons, matchesAt]
      rw [Bool.and_eq_true, Bool.and_eq_true, ih hp' hu' ds]
      have hcu : (c == '_') = false := by simp [hc2]
      rw [hcu, Bool.false_or]

/-- SQLite pattern `%q%` with a wildcard-free `q` matches `s` exactly when
the lower-cased `q` occurs contiguously in the lower-cased `s`. -/
theorem likeMatch_contains (q : List Char) (hp : '%' ∉ q) (hu : '_' ∉ q)
    (s : List Char) :
    likeMatch ('%' :: (q ++ ['%'])) s = true ↔
      occursIn (q.map lowerChar) (s.map lowerChar) = true := by
  rw [likeMatch_pct, occursIn]
  rw [List.any_eq_true, List.any_eq_true]
  constructor
  · rintro ⟨t, ht, hm⟩
    refine ⟨t.map lowerChar, ?_, (likeMatch_plain_pct q hp hu t).mp hm⟩
    rw [List.map_tails]
    exact List.mem_map_of_mem (List.map lowerChar) ht
  · rintro ⟨u, hu2, hm⟩
    rw [List.map_tails, List.mem_map] at hu2
    obtain ⟨t, ht, rfl⟩ := hu2
    exact ⟨t, ht, (likeMatch_plain_pct q hp hu t).mpr hm⟩

/-- Claim C9 counterexample data: one book titled "abc" by author "x". -/
def bkABC : Book := ⟨1, "abc", "x", "g"⟩

/-- Claim C9 counterexample database. -/
def dbB : DB := ⟨[bkABC], [], 2, 1⟩

/-- Claim C9 counterexample: for the query "a_c" the search returns the book
"abc" although neither its title nor its author contains "a_c" as a
(case-insensitive) substring — the underscore acts as a LIKE wildcard. -/
theorem search_books_cex :
    bkABC ∈ search_books dbB "a_c" ∧
    containsCI "a_c" bkABC.title = false ∧
    containsCI "a_c" bkABC.author = false := by decide

/-- Claim C9 (amended): for every query without LIKE wildcard characters, the
search returns exactly the books whose title or author contains the query as
an ASCII-case-insensitive substring, ordered by title. -/
theorem search_books_characterization (st : DB) (q : String)
    (h1 : '%' ∉ q.data) (h2 : '_' ∉ q.data) :
    (∀ b : Book, b ∈ search_books st q ↔
      b ∈ st.books ∧ (containsCI q b.title = true ∨ containsCI q b.author = true)) ∧
    (search_books st q).Pairwise (fun a b => a.title ≤ b.title) := by
  constructor
  · intro b
    rw [search_books, List.mem_insertionSort, List.mem_filter]
    rw [Bool.or_eq_true]
    rw [likeMatch_contains q.data h1 h2 b.title.data,
      likeMatch_contains q.data h1 h2 b.author.data]
    exact Iff.rfl
  · exact List.sorted_insertionSort bookLe _

/-- Claim C9 witness database: a book whose author (but not title) contains
the query. -/
def dbS : DB := ⟨[⟨1, "아몬드", "Sohn Wonpyung", "novel"⟩], [], 2, 1⟩

/-- Witness for claim C9: the query "WON" matches only the author, yet the
book is returned. -/
theorem search_books_characterization_witness :
    (⟨1, "아몬드", "Sohn Wonpyung", "novel"⟩ : Book) ∈ search_books dbS "WON" :=
  ((search_books_characterization dbS "WON" (by decide) (by decide)).1
    ⟨1, "아몬드", "Sohn Wonpyung", "novel"⟩).2 ⟨by decide, Or.inr (by decide)⟩
